import Mathlib

/-!
Shallow embedding of `apps/local_components/models.py` (badgr-server):
the `Issuer`, `BadgeClass` and `BadgeInstance` models and their
`from_analyzed_instance` classmethods, together with `image_url`.

Modelling conventions:
* The relational store is a `Store` of row lists, threaded explicitly.
* Python exceptions become `Except Err`; the store at the moment the
  exception propagates is returned alongside (exceptions do not roll
  back prior saves).
* `kwargs.get('recipient_user', default)` distinguishes a missing key
  from a key bound to `None`, so the kwargs model uses
  `Option (Option Nat)`; `kwargs.get('image')` is only ever tested with
  `is not None`, so a plain `Option String` suffices there.
* Python evaluates the default argument of `dict.get` eagerly, so the
  embedded `BadgeInstance.from_analyzed_instance` evaluates
  `find_recipient_user` on every creation; `Store.recipient_lookups`
  counts those evaluations, and `Store.instance_saves` counts saves of
  `BadgeInstance` rows, so that "how often was X consulted/saved"
  becomes observable.
* Django specifics kept: `objects.get` distinguishes no match
  (`DoesNotExist`), one match, and several (`MultipleObjectsReturned`);
  a `FileField` name may be rewritten by the storage backend at save
  time (`Env.storage_name`); `save(update_fields=['json'])` writes only
  the `json` column.
-/

namespace Badgr

/-- JSON-ish values: the code only ever reads strings and nested
dictionaries out of the analyzed payload's `data`. -/
inductive JVal where
  | s (v : String)
  | obj (fields : List (String × JVal))

/-- A JSON document (Python dict with string keys, insertion ordered). -/
abbrev Doc := List (String × JVal)

/-- Python `d.get(k)` / `d[k]` lookup. -/
def getKey (d : Doc) (k : String) : Option JVal :=
  match d.find? (fun p => p.1 == k) with
  | some p => some p.2
  | none => none

/-- Python `d[k] = v`: replace in place if the key exists, else append. -/
def setKey (d : Doc) (k : String) (v : JVal) : Doc :=
  if d.any (fun p => p.1 == k) then
    d.map (fun p => if p.1 == k then (k, v) else p)
  else d ++ [(k, v)]

/-- One entry of a model's `errors` JSON list:
`(code, message, detail)` where the detail is a list of messages. -/
abbrev ErrEntry := String × String × List String

/-- The nested `abi.issuer` / `abi.badge` analysis objects: each exposes
`version` (None when undetected) and `version_errors`. -/
structure SubAnalysis where
  version : Option String
  version_errors : List String

/-- The `AnalyzedBadgeInstance` collaborator, as consumed by this module.
`issuer_url = none` (resp. `badge_url = none`) models the attribute being
absent, so that accessing it raises `AttributeError` (0.5 badges). -/
structure Abi where
  is_valid : Bool
  issuer_url : Option String
  badge_url : Option String
  instance_url : String
  recipient_id : String
  issuer : SubAnalysis
  badge : SubAnalysis
  data : Doc
  all_errors : List ErrEntry

/-- Settings and external collaborators consumed by the module. Users
are identified by `Nat` ids; image files by their `name` string. -/
structure Env where
  MEDIA_URL : String
  HTTP_ORIGIN : String
  find_recipient_user : String → Option Nat
  baked_image_from_abi : Abi → String
  storage_name : String → String
  uuid4 : Nat → String

/-- The `**kwargs` of `from_analyzed_instance`. For `recipient_user`,
`none` means the key is absent and `some v` means it is bound to `v`
(possibly `None`). For `image`, only `is not None` is ever tested. -/
structure Kwargs where
  recipient_user : Option (Option Nat) := none
  image : Option String := none

/-- Row of the `Issuer` table (`AbstractLocalComponent` fields). -/
structure IssuerRow where
  id : Nat
  url : String
  json : Doc
  errors : List ErrEntry

/-- Row of the `BadgeClass` table; `issuer` is a non-nullable FK. -/
structure BadgeClassRow where
  id : Nat
  url : String
  json : Doc
  errors : List ErrEntry
  issuer : Nat

/-- Row of the `BadgeInstance` table. `url` is declared `blank=True`
and so defaults to the empty string; `badgeclass`, `issuer` and
`recipient_user` are nullable FKs; `image_name` is the stored
`image.name`. -/
structure BadgeInstanceRow where
  id : Nat
  url : String
  json : Doc
  errors : List ErrEntry
  badgeclass : Option Nat
  issuer : Option Nat
  recipient_id : String
  recipient_user : Option Nat
  image_name : String

/-- Exceptions that can propagate out of the three classmethods. -/
inductive Err where
  | validationError (msg : String)
  | attributeError
  | multipleObjectsReturned
  | integrityError

/-- The relational store plus observation counters: `instance_saves`
counts saves of `BadgeInstance` rows and `recipient_lookups` counts
evaluations of `find_recipient_user`. -/
structure Store where
  issuers : List IssuerRow
  badgeclasses : List BadgeClassRow
  instances : List BadgeInstanceRow
  next_id : Nat
  uuid_counter : Nat
  instance_saves : Nat
  recipient_lookups : Nat

/-- The empty store. -/
def emptyStore : Store :=
  { issuers := [], badgeclasses := [], instances := [],
    next_id := 0, uuid_counter := 0, instance_saves := 0,
    recipient_lookups := 0 }

/-- The first list leads the second one, character by character. -/
def charsLead : List Char → List Char → Bool
  | [], _ => true
  | _ :: _, [] => false
  | c :: cs, d :: ds => c == d && charsLead cs ds

/-- Python `s.startswith(p)`. -/
def strStartsWith (s p : String) : Bool :=
  charsLead p.data s.data

/-- `os.path.splitext`, POSIX rules: the extension starts at the last
dot of the basename, unless the basename consists only of leading dots
up to it. -/
def lastIndexOf (cs : List Char) (c : Char) : Option Nat :=
  (List.range cs.length).foldl
    (fun acc i => if cs[i]? = some c then some i else acc) none

/-- `os.path.splitext(p)` for POSIX paths. -/
def splitext (p : String) : String × String :=
  let cs := p.data
  let sepIdx : Int := match lastIndexOf cs '/' with
    | some i => Int.ofNat i
    | none => -1
  let dotIdx : Int := match lastIndexOf cs '.' with
    | some i => Int.ofNat i
    | none => -1
  if sepIdx < dotIdx then
    let d := dotIdx.toNat
    let f := (sepIdx + 1).toNat
    if (List.range' f (d - f)).any (fun i => cs.getD i '.' ≠ '.') then
      (⟨cs.take d⟩, ⟨cs.drop d⟩)
    else (p, "")
  else (p, "")

/-- `abi.data.get('badge', {}).get('issuer').copy()` (Issuer, line 55):
`none` models the uncaught `AttributeError` raised when the result of
the inner `get` is `None` or not a dict. -/
def issuerJsonOf (data : Doc) : Option Doc :=
  match getKey data "badge" with
  | some (JVal.obj b) =>
    match getKey b "issuer" with
    | some (JVal.obj i) => some i
    | _ => none
  | some (JVal.s _) => none
  | none => none

/-- `abi.data.get('badge').copy()` (BadgeClass, line 99): `none` models
the uncaught `AttributeError` when `badge` is absent or not a dict. -/
def badgeJsonOf (data : Doc) : Option Doc :=
  match getKey data "badge" with
  | some (JVal.obj b) => some b
  | _ => none

/-- `Issuer.from_analyzed_instance(abi, **kwargs)`. -/
def Issuer.from_analyzed_instance (_env : Env) (abi : Abi) (_kw : Kwargs)
    (s : Store) : Except Err (Option IssuerRow) × Store :=
  if !abi.is_valid then
    (.error (.validationError
      "Cannot save badgeclass from an invalid badge instance."), s)
  else
    match abi.issuer_url with
    | none => (.ok none, s)
    | some u =>
      match s.issuers.filter (fun r => r.url == u) with
      | [r] => (.ok (some r), s)
      | _ :: _ :: _ => (.error .multipleObjectsReturned, s)
      | [] =>
        let issuer_errors : List ErrEntry :=
          match abi.issuer.version with
          | none =>
            [("error.version_detection",
              "Could not determine Open Badges version of Issuer",
              abi.issuer.version_errors)]
          | some _ => []
        match issuerJsonOf abi.data with
        | none => (.error .attributeError, s)
        | some ij =>
          let ij :=
            setKey ij "@context" (.s "https://w3id.org/openbadges/v1")
          let row : IssuerRow :=
            { id := s.next_id, url := u, json := ij,
              errors := issuer_errors }
          (.ok (some row),
           { s with issuers := s.issuers ++ [row],
                    next_id := s.next_id + 1 })

/-- `BadgeClass.from_analyzed_instance(abi, **kwargs)`. Assigning the
`None` returned by the Issuer lookup to the non-nullable `issuer` FK
makes the subsequent save fail with an integrity error. -/
def BadgeClass.from_analyzed_instance (env : Env) (abi : Abi)
    (kw : Kwargs) (s : Store) :
    Except Err (Option BadgeClassRow) × Store :=
  if !abi.is_valid then
    (.error (.validationError
      "Cannot save badgeclass from an invalid badge instance."), s)
  else
    match abi.badge_url with
    | none => (.ok none, s)
    | some u =>
      match s.badgeclasses.filter (fun r => r.url == u) with
      | [r] => (.ok (some r), s)
      | _ :: _ :: _ => (.error .multipleObjectsReturned, s)
      | [] =>
        let badgeclass_errors : List ErrEntry :=
          match abi.badge.version with
          | none =>
            [("error.version_detection",
              "Could not determine Open Badges version of BadgeClass",
              abi.badge.version_errors)]
          | some _ => []
        match badgeJsonOf abi.data with
        | none => (.error .attributeError, s)
        | some bj =>
          let bj :=
            setKey bj "@context" (.s "https://w3id.org/openbadges/v1")
          match Issuer.from_analyzed_instance env abi kw s with
          | (.error e, s1) => (.error e, s1)
          | (.ok none, s1) => (.error .integrityError, s1)
          | (.ok (some irow), s1) =>
            let row : BadgeClassRow :=
              { id := s1.next_id, url := u, json := bj,
                errors := badgeclass_errors, issuer := irow.id }
            (.ok (some row),
             { s1 with badgeclasses := s1.badgeclasses ++ [row],
                       next_id := s1.next_id + 1 })

/-- `BadgeInstance.image_url(self)`: depends only on settings and on
`self.image.name`. -/
def BadgeInstance.image_url (env : Env) (image_name : String) : String :=
  if strStartsWith env.MEDIA_URL "http" then
    env.MEDIA_URL ++ image_name
  else
    env.HTTP_ORIGIN ++ env.MEDIA_URL ++ image_name

/-- `BadgeInstance.from_analyzed_instance(abi, **kwargs)`. -/
def BadgeInstance.from_analyzed_instance (env : Env) (abi : Abi)
    (kw : Kwargs) (s : Store) :
    Except Err BadgeInstanceRow × Store :=
  if !abi.is_valid then
    (.error (.validationError "Cannot save an invalid badge instance."),
     s)
  else
    match s.instances.filter (fun r => r.url == abi.instance_url) with
    | [r] =>
      if r.recipient_user.isNone ∧ kw.recipient_user.join.isSome then
        let r1 := { r with recipient_user := kw.recipient_user.join }
        (.ok r1,
         { s with
             instances :=
               s.instances.map (fun x => if x.id == r.id then r1 else x),
             instance_saves := s.instance_saves + 1 })
      else
        (.ok r, s)
    | _ :: _ :: _ => (.error .multipleObjectsReturned, s)
    | [] =>
      let looked := env.find_recipient_user abi.recipient_id
      let s0 := { s with recipient_lookups := s.recipient_lookups + 1 }
      let ru : Option Nat :=
        match kw.recipient_user with
        | some v => v
        | none => looked
      match BadgeClass.from_analyzed_instance env abi kw s0 with
      | (.error e, s1) => (.error e, s1)
      | (.ok bcOpt, s1) =>
        let image0 : String :=
          match kw.image with
          | some img => img
          | none => env.baked_image_from_abi abi
        let ext := (splitext image0).2
        let newName := "earned_badge_" ++ env.uuid4 s1.uuid_counter ++ ext
        let s2 := { s1 with uuid_counter := s1.uuid_counter + 1 }
        let json1 :=
          setKey abi.data "image" (.s (BadgeInstance.image_url env newName))
        let savedName := env.storage_name newName
        let row1 : BadgeInstanceRow :=
          { id := s2.next_id, url := "", json := json1,
            errors := abi.all_errors,
            badgeclass := bcOpt.map (fun bc => bc.id),
            issuer := bcOpt.map (fun bc => bc.issuer),
            recipient_id := abi.recipient_id, recipient_user := ru,
            image_name := savedName }
        let s3 :=
          { s2 with instances := s2.instances ++ [row1],
                    next_id := s2.next_id + 1,
                    instance_saves := s2.instance_saves + 1 }
        let eurl := BadgeInstance.image_url env savedName
        let differs : Bool :=
          match getKey row1.json "image" with
          | some (JVal.s v) => v != eurl
          | _ => true
        if differs then
          let row2 := { row1 with json := setKey row1.json "image" (.s eurl) }
          (.ok row2,
           { s3 with
               instances :=
                 s3.instances.map
                   (fun x => if x.id == row1.id then row2 else x),
               instance_saves := s3.instance_saves + 1 })
        else
          (.ok row1, s3)

/-! Concrete fixtures used to evaluate the operations on closed inputs. -/

/-- A valid 1.0-style analyzed payload with issuer, badge and instance
URLs all present. -/
def abiX : Abi :=
  { is_valid := true,
    issuer_url := some "http://e.org/issuer",
    badge_url := some "http://e.org/badge",
    instance_url := "http://e.org/instances/1",
    recipient_id := "a@b.c",
    issuer := { version := some "1.0", version_errors := [] },
    badge := { version := some "1.0", version_errors := [] },
    data := [("badge",
              .obj [("issuer", .obj [("name", .s "E")]),
                    ("name", .s "B")]),
             ("uid", .s "1")],
    all_errors := [] }

/-- An invalid payload. -/
def abiBad : Abi := { abiX with is_valid := false }

/-- A legacy 0.5-style payload: valid, but with no `issuer_url` /
`badge_url` attributes. -/
def abiLegacy : Abi :=
  { abiX with issuer_url := none, badge_url := none }

/-- A concrete environment whose storage keeps file names unchanged. -/
def envX : Env :=
  { MEDIA_URL := "http://media.e.org/",
    HTTP_ORIGIN := "http://e.org",
    find_recipient_user := fun _ => none,
    baked_image_from_abi := fun _ => "badges/baked.png",
    storage_name := fun n => n,
    uuid4 := fun _ => "u" }

/-- An environment whose storage backend rewrites file names on save. -/
def envR : Env := { envX with storage_name := fun n => "media/" ++ n }

/-- A pre-existing `BadgeInstance` row carrying `abiX.instance_url` and
no resolved recipient. -/
def rowC4 : BadgeInstanceRow :=
  { id := 10, url := "http://e.org/instances/1", json := [],
    errors := [], badgeclass := none, issuer := none,
    recipient_id := "a@b.c", recipient_user := none,
    image_name := "x.png" }

/-- A store holding just `rowC4`. -/
def storeC4 : Store := { emptyStore with instances := [rowC4] }

/-- Two successive `BadgeInstance.from_analyzed_instance` calls with the
same payload, starting from the empty store. -/
def c1_run1 : Except Err BadgeInstanceRow × Store :=
  BadgeInstance.from_analyzed_instance envX abiX {} emptyStore

/-- The second of the two calls. -/
def c1_run2 : Except Err BadgeInstanceRow × Store :=
  BadgeInstance.from_analyzed_instance envX abiX {} c1_run1.2

/-- Store passed to the inner `BadgeClass` call of a `BadgeInstance`
creation starting from the empty store (recipient lookup counted). -/
def c8s0 : Store := { emptyStore with recipient_lookups := 1 }

/-- The inner `BadgeClass` call of that creation, under `envR`. -/
def c8res : Except Err (Option BadgeClassRow) × Store :=
  BadgeClass.from_analyzed_instance envR abiX {} c8s0

/-- The `BadgeClass` row it returns. -/
def c8opt : Option BadgeClassRow :=
  match c8res.1 with
  | .ok o => o
  | .error _ => none

/-- The invariant of claim C2, as a predicate on stores: an instance
row that references a badgeclass carries that badgeclass's issuer. -/
def instanceIssuerInv (s : Store) : Prop :=
  ∀ r ∈ s.instances, ∀ bcid, r.badgeclass = some bcid →
    ∃ bc ∈ s.badgeclasses, bc.id = bcid ∧ r.issuer = some bc.issuer

/-- The invariant of claim C10: every `BadgeInstance` row has a blank
`url`. -/
def blankInstanceUrls (s : Store) : Prop :=
  ∀ r ∈ s.instances, r.url = ""

end Badgr


namespace Badgr

theorem find_map_replace (t : Doc) (k : String) (v : JVal)
    (h : t.any (fun p => p.1 == k) = true) :
    (t.map (fun p => if p.1 == k then (k, v) else p)).find?
      (fun p => p.1 == k) = some (k, v) := by
  induction t with
  | nil => simp at h
  | cons p t ih =>
    rw [List.map_cons]
    by_cases hp : (p.1 == k) = true
    · rw [if_pos hp, List.find?_cons_of_pos _ (by simp)]
    · rw [if_neg hp, List.find?_cons_of_neg _ (by simpa using hp)]
      exact ih (by simpa [hp] using h)

theorem find_append_new (t : Doc) (k : String) (v : JVal)
    (h : t.any (fun p => p.1 == k) = false) :
    (t ++ [(k, v)]).find? (fun p => p.1 == k) = some (k, v) := by
  induction t with
  | nil => simp
  | cons p t ih =>
    simp only [List.any_cons, Bool.or_eq_false_iff] at h
    rw [List.cons_append, List.find?_cons_of_neg _ (by simpa using h.1)]
    exact ih h.2

theorem getKey_setKey (d : Doc) (k : String) (v : JVal) :
    getKey (setKey d k v) k = some v := by
  unfold getKey setKey
  by_cases h : d.any (fun p => p.1 == k) = true
  · rw [if_pos h, find_map_replace d k v h]
  · rw [if_neg h, find_append_new d k v (by rwa [Bool.not_eq_true] at h)]

/-- Claim C3: on a payload for which `is_valid()` is false, each of the
three `from_analyzed_instance` classmethods raises the validation error
and leaves the store untouched. -/
theorem C3_invalid_payload_raises_everywhere (env : Env) (abi : Abi)
    (kw : Kwargs) (s : Store) (h : abi.is_valid = false) :
    Issuer.from_analyzed_instance env abi kw s =
      (.error (.validationError
        "Cannot save badgeclass from an invalid badge instance."), s)
    ∧ BadgeClass.from_analyzed_instance env abi kw s =
      (.error (.validationError
        "Cannot save badgeclass from an invalid badge instance."), s)
    ∧ BadgeInstance.from_analyzed_instance env abi kw s =
      (.error (.validationError
        "Cannot save an invalid badge instance."), s) := by
  unfold Issuer.from_analyzed_instance BadgeClass.from_analyzed_instance
    BadgeInstance.from_analyzed_instance
  simp [h]

theorem C3_witness :
    abiBad.is_valid = false
    ∧ Issuer.from_analyzed_instance envX abiBad {} emptyStore =
      (.error (.validationError
        "Cannot save badgeclass from an invalid badge instance."),
       emptyStore) :=
  ⟨rfl, (C3_invalid_payload_raises_everywhere envX abiBad {} emptyStore rfl).1⟩

/-- Claim C5: `image_url()` returns `MEDIA_URL ++ image.name` when
`MEDIA_URL` starts with "http", and
`HTTP_ORIGIN ++ MEDIA_URL ++ image.name` otherwise, for every
configuration and stored image name. -/
theorem C5_image_url_spec (env : Env) (image_name : String) :
    (strStartsWith env.MEDIA_URL "http" = true →
      BadgeInstance.image_url env image_name =
        env.MEDIA_URL ++ image_name)
    ∧ (strStartsWith env.MEDIA_URL "http" = false →
      BadgeInstance.image_url env image_name =
        env.HTTP_ORIGIN ++ env.MEDIA_URL ++ image_name) := by
  unfold BadgeInstance.image_url
  constructor <;> intro h <;> simp [h]

theorem C5_witness :
    BadgeInstance.image_url envX "a.png" = "http://media.e.org/" ++ "a.png"
    ∧ BadgeInstance.image_url { envX with MEDIA_URL := "/media/" } "a.png"
      = "http://e.org" ++ "/media/" ++ "a.png" :=
  ⟨(C5_image_url_spec envX "a.png").1 rfl,
   (C5_image_url_spec { envX with MEDIA_URL := "/media/" } "a.png").2 rfl⟩

/-- Claim C6: on a valid payload whose URL lookup key is absent (the
attribute access fails, as for 0.5 badges), `Issuer.from_analyzed_instance`
and `BadgeClass.from_analyzed_instance` return `None` without raising and
leave the store untouched. -/
theorem C6_legacy_payload_returns_none (env : Env) (abi : Abi)
    (kw : Kwargs) (s : Store) (hv : abi.is_valid = true) :
    (abi.issuer_url = none →
      Issuer.from_analyzed_instance env abi kw s = (.ok none, s))
    ∧ (abi.badge_url = none →
      BadgeClass.from_analyzed_instance env abi kw s = (.ok none, s)) := by
  unfold Issuer.from_analyzed_instance BadgeClass.from_analyzed_instance
  constructor <;> intro h <;> simp [hv, h]

theorem C6_witness :
    abiLegacy.is_valid = true
    ∧ Issuer.from_analyzed_instance envX abiLegacy {} emptyStore =
      (.ok none, emptyStore)
    ∧ BadgeClass.from_analyzed_instance envX abiLegacy {} emptyStore =
      (.ok none, emptyStore) :=
  ⟨rfl,
   (C6_legacy_payload_returns_none envX abiLegacy {} emptyStore rfl).1 rfl,
   (C6_legacy_payload_returns_none envX abiLegacy {} emptyStore rfl).2 rfl⟩

/-- Claim C1 fails on the code for `BadgeInstance` (code bug): two
successive calls with the same payload on the empty store create the row
with id 2 and a blank `url`; the second lookup by `instance_url` misses,
so a second row (id 3) is created instead of returning the first.
`Issuer` and `BadgeClass` are idempotent: one row each after both calls. -/
theorem C1_badgeinstance_not_idempotent :
    (match c1_run1.1 with
     | .ok r => some (r.id, r.url)
     | .error _ => none) = some (2, "")
    ∧ (match c1_run2.1 with
       | .ok r => some r.id
       | .error _ => none) = some 3
    ∧ c1_run2.2.instances.length = 2
    ∧ c1_run2.2.issuers.length = 1
    ∧ c1_run2.2.badgeclasses.length = 1 := by
  decide

end Badgr

namespace Badgr

/-- Claim C4: when a row exists for the payload's `instance_url`, has no
`recipient_user`, and a non-null one is supplied in the options, it is
persisted on that row and the updated row is returned; otherwise the row
is returned unchanged and the store is untouched. -/
theorem C4_existing_row_recipient_attach (env : Env) (abi : Abi)
    (kw : Kwargs) (s : Store) (r : BadgeInstanceRow)
    (hv : abi.is_valid = true)
    (hex : s.instances.filter (fun x => x.url == abi.instance_url) = [r]) :
    (∀ u, r.recipient_user = none → kw.recipient_user.join = some u →
      BadgeInstance.from_analyzed_instance env abi kw s =
        (.ok { r with recipient_user := some u },
         { s with
             instances := s.instances.map
               (fun x => if x.id == r.id then
                  { r with recipient_user := some u } else x),
             instance_saves := s.instance_saves + 1 }))
    ∧ ((r.recipient_user ≠ none ∨ kw.recipient_user.join = none) →
      BadgeInstance.from_analyzed_instance env abi kw s = (.ok r, s)) := by
  have hj : kw.recipient_user.join = (kw.recipient_user.bind fun a => a) := rfl
  constructor
  · intro u h1 h2
    rw [hj] at h2
    unfold BadgeInstance.from_analyzed_instance
    simp [hv, hex, h1, h2]
  · intro h
    unfold BadgeInstance.from_analyzed_instance
    rcases h with h | h
    · simp [hv, hex, Option.isNone_iff_eq_none, h]
    · rw [hj] at h
      simp [hv, hex, h]

end Badgr

namespace Badgr

theorem C4_witness :
    BadgeInstance.from_analyzed_instance envX abiX
        { recipient_user := some (some 7) } storeC4 =
      (.ok { rowC4 with recipient_user := some 7 },
       { storeC4 with
           instances := storeC4.instances.map
             (fun x => if x.id == rowC4.id then
                { rowC4 with recipient_user := some 7 } else x),
           instance_saves := storeC4.instance_saves + 1 }) :=
  (C4_existing_row_recipient_attach envX abiX
    { recipient_user := some (some 7) } storeC4 rowC4 rfl rfl).1 7 rfl rfl

theorem issuer_frame (env : Env) (abi : Abi) (kw : Kwargs) (s : Store) :
    (Issuer.from_analyzed_instance env abi kw s).2.badgeclasses
      = s.badgeclasses
    ∧ (Issuer.from_analyzed_instance env abi kw s).2.instances
      = s.instances
    ∧ (Issuer.from_analyzed_instance env abi kw s).2.instance_saves
      = s.instance_saves
    ∧ (Issuer.from_analyzed_instance env abi kw s).2.recipient_lookups
      = s.recipient_lookups
    ∧ (Issuer.from_analyzed_instance env abi kw s).2.uuid_counter
      = s.uuid_counter := by
  unfold Issuer.from_analyzed_instance
  repeat' split
  all_goals simp

theorem badgeclass_frame (env : Env) (abi : Abi) (kw : Kwargs)
    (s : Store) :
    (∀ x ∈ s.badgeclasses,
      x ∈ (BadgeClass.from_analyzed_instance env abi kw s).2.badgeclasses)
    ∧ (BadgeClass.from_analyzed_instance env abi kw s).2.instances
      = s.instances
    ∧ (BadgeClass.from_analyzed_instance env abi kw s).2.instance_saves
      = s.instance_saves
    ∧ (BadgeClass.from_analyzed_instance env abi kw s).2.recipient_lookups
      = s.recipient_lookups
    ∧ (BadgeClass.from_analyzed_instance env abi kw s).2.uuid_counter
      = s.uuid_counter := by
  have hI := issuer_frame env abi kw s
  unfold BadgeClass.from_analyzed_instance
  repeat' split
  all_goals try (simp; done)
  all_goals
    (rename_i heq
     rw [heq] at hI
     obtain ⟨h1, h2, h3, h4, h5⟩ := hI
     simp only at h1 h2 h3 h4 h5
     simp [h1, h2, h3, h4, h5]
     try exact fun x hx => Or.inl hx)

end Badgr

namespace Badgr

theorem mem_of_filter_singleton {α : Type} {p : α → Bool} {l : List α}
    {r : α} (h : l.filter p = [r]) : r ∈ l :=
  List.mem_of_mem_filter (p := p) (by rw [h]; exact List.mem_singleton_self r)

theorem badgeclass_ok_row (env : Env) (abi : Abi) (kw : Kwargs)
    (s : Store) (bc : BadgeClassRow)
    (h : (BadgeClass.from_analyzed_instance env abi kw s).1
      = .ok (some bc)) :
    bc ∈ (BadgeClass.from_analyzed_instance env abi kw s).2.badgeclasses := by
  unfold BadgeClass.from_analyzed_instance at h ⊢
  repeat' split at h
  all_goals try simp_all
  all_goals
    (rename_i heq
     exact mem_of_filter_singleton heq)

end Badgr

namespace Badgr

theorem mem_map_ite {α : Type} {l : List α} {p : α → Bool} {r2 : α}
    {x : α} (hx : x ∈ l.map (fun y => if p y then r2 else y)) :
    x = r2 ∨ x ∈ l := by
  simp only [List.mem_map] at hx
  rcases hx with ⟨a, ha, hax⟩
  by_cases hfa : p a = true
  · rw [if_pos hfa] at hax
    exact Or.inl hax.symm
  · rw [if_neg hfa] at hax
    exact Or.inr (hax ▸ ha)

/-- Claim C10: every `BadgeInstance` row ever stored has a blank `url`:
if all rows have a blank `url`, they still do after any of the three
operations, and any row returned by
`BadgeInstance.from_analyzed_instance` has a blank `url`. -/
theorem C10_instance_url_always_blank (env : Env) (abi : Abi)
    (kw : Kwargs) (s : Store) (h : blankInstanceUrls s) :
    blankInstanceUrls (Issuer.from_analyzed_instance env abi kw s).2
    ∧ blankInstanceUrls (BadgeClass.from_analyzed_instance env abi kw s).2
    ∧ blankInstanceUrls (BadgeInstance.from_analyzed_instance env abi kw s).2
    ∧ (∀ r, (BadgeInstance.from_analyzed_instance env abi kw s).1 = .ok r →
        r.url = "") := by
  unfold blankInstanceUrls at h
  refine ⟨?_, ?_, ?_⟩
  · have hf := (issuer_frame env abi kw s).2.1
    unfold blankInstanceUrls
    rw [hf]; exact h
  · have hf := (badgeclass_frame env abi kw s).2.1
    unfold blankInstanceUrls
    rw [hf]; exact h
  have hbi :
      (∀ x ∈ (BadgeInstance.from_analyzed_instance env abi kw s).2.instances,
        x.url = "")
      ∧ ∀ r, (BadgeInstance.from_analyzed_instance env abi kw s).1 = .ok r →
          r.url = "" := by
    have hbf := (badgeclass_frame env abi kw
      { s with recipient_lookups := s.recipient_lookups + 1 }).2.1
    unfold BadgeInstance.from_analyzed_instance
    repeat' split
    all_goals try (refine ⟨h, ?_⟩; intro r hr; simp at hr; done)
    all_goals
      first
      | -- existing row, recipient update persisted
        (rename_i r0 heq hcond
         simp only []
         refine ⟨?_, ?_⟩
         · intro x hx
           rcases mem_map_ite hx with rfl | hx
           · exact h r0 (mem_of_filter_singleton heq)
           · exact h x hx
         · intro r hr
           simp only [Except.ok.injEq] at hr
           subst hr
           exact h r0 (mem_of_filter_singleton heq))
      | -- existing row, returned unchanged
        (rename_i r0 heq hcond
         refine ⟨h, ?_⟩
         intro r hr
         simp only [Except.ok.injEq] at hr
         subst hr
         exact h r0 (mem_of_filter_singleton heq))
      | -- creation path
        (simp only []
         split
         · rename_i e s1 heqBC
           rw [heqBC] at hbf
           simp only at hbf
           refine ⟨?_, ?_⟩
           · intro x hx
             rw [hbf] at hx
             exact h x hx
           · intro r hr; simp at hr
         · rename_i bcOpt s1 heqBC
           rw [heqBC] at hbf
           simp only at hbf
           split
           · refine ⟨?_, ?_⟩
             · intro x hx
               rcases mem_map_ite hx with rfl | hx
               · rfl
               · rcases List.mem_append.mp hx with hx | hx
                 · rw [hbf] at hx
                   exact h x hx
                 · simp only [List.mem_singleton] at hx
                   subst hx
                   rfl
             · intro r hr
               simp only [Except.ok.injEq] at hr
               subst hr
               rfl
           · refine ⟨?_, ?_⟩
             · intro x hx
               rcases List.mem_append.mp hx with hx | hx
               · rw [hbf] at hx
                 exact h x hx
               · simp only [List.mem_singleton] at hx
                 subst hx
                 rfl
             · intro r hr
               simp only [Except.ok.injEq] at hr
               subst hr
               rfl)
  exact ⟨hbi.1, hbi.2⟩

end Badgr

namespace Badgr

/-- Claim C9, amended: on the creation path the attached recipient
identity is the supplied `recipient_user` when the option is present
(even if `None`), else the result of `find_recipient_user` on the
payload's `recipient_id`; but `find_recipient_user` is evaluated on
every creation, being the eagerly-evaluated default of `kwargs.get`. -/
theorem C9_amended_recipient_resolution (env : Env) (abi : Abi)
    (kw : Kwargs) (s : Store)
    (hv : abi.is_valid = true)
    (hfresh : s.instances.filter (fun r => r.url == abi.instance_url)
      = []) :
    (BadgeInstance.from_analyzed_instance env abi kw s).2.recipient_lookups
      = s.recipient_lookups + 1
    ∧ ∀ r, (BadgeInstance.from_analyzed_instance env abi kw s).1 = .ok r →
        r.recipient_user =
          (match kw.recipient_user with
           | some v => v
           | none => env.find_recipient_user abi.recipient_id) := by
  have hbf := (badgeclass_frame env abi kw
    { s with recipient_lookups := s.recipient_lookups + 1 }).2.2.2.1
  unfold BadgeInstance.from_analyzed_instance
  repeat' split
  all_goals try (simp_all; done)
  all_goals
    (simp only []
     split
     · rename_i e s1 heqBC
       rw [heqBC] at hbf
       simp only at hbf
       refine ⟨hbf, ?_⟩
       intro r hr
       simp at hr
     · rename_i bcOpt s1 heqBC
       rw [heqBC] at hbf
       simp only at hbf
       split
       all_goals
         (refine ⟨hbf, ?_⟩
          intro r hr
          simp only [Except.ok.injEq] at hr
          subst hr
          rfl))

end Badgr

namespace Badgr

/-- Claim C2: a `BadgeInstance` whose `badgeclass` reference is non-null
carries its badgeclass's issuer: `BadgeInstance.from_analyzed_instance`
preserves this invariant of the store and establishes it for the row it
returns. -/
theorem C2_issuer_transitive_from_badgeclass (env : Env) (abi : Abi)
    (kw : Kwargs) (s : Store) (hinv : instanceIssuerInv s) :
    instanceIssuerInv (BadgeInstance.from_analyzed_instance env abi kw s).2
    ∧ ∀ r, (BadgeInstance.from_analyzed_instance env abi kw s).1 = .ok r →
        ∀ bcid, r.badgeclass = some bcid →
          ∃ bc ∈ (BadgeInstance.from_analyzed_instance env abi kw s).2.badgeclasses,
            bc.id = bcid ∧ r.issuer = some bc.issuer := by
  unfold instanceIssuerInv at hinv
  unfold instanceIssuerInv BadgeInstance.from_analyzed_instance
  repeat' split
  all_goals try (refine ⟨hinv, ?_⟩; intro r hr; simp at hr; done)
  all_goals
    first
    | (rename_i r0 heq hcond
       simp only []
       have hr0 := mem_of_filter_singleton heq
       refine ⟨?_, ?_⟩
       · intro x hx bcid hbc
         rcases mem_map_ite hx with rfl | hx
         · exact hinv r0 hr0 bcid hbc
         · exact hinv x hx bcid hbc
       · intro r hr
         simp only [Except.ok.injEq] at hr
         subst hr
         intro bcid hbc
         exact hinv r0 hr0 bcid hbc)
    | (rename_i r0 heq hcond
       have hr0 := mem_of_filter_singleton heq
       refine ⟨hinv, ?_⟩
       intro r hr
       simp only [Except.ok.injEq] at hr
       subst hr
       intro bcid hbc
       exact hinv r0 hr0 bcid hbc)
    | (simp only []
       split
       · rename_i e s1 heqBC
         have hbfI := (badgeclass_frame env abi kw
           { s with recipient_lookups := s.recipient_lookups + 1 }).2.1
         have hbm := (badgeclass_frame env abi kw
           { s with recipient_lookups := s.recipient_lookups + 1 }).1
         rw [heqBC] at hbfI hbm
         simp only at hbfI hbm
         refine ⟨?_, ?_⟩
         · intro x hx bcid hbc
           rw [hbfI] at hx
           obtain ⟨bc, hbcm, hid, hiss⟩ := hinv x hx bcid hbc
           exact ⟨bc, hbm bc hbcm, hid, hiss⟩
         · intro r hr
           simp at hr
       · rename_i bcOpt s1 heqBC
         have hbfI := (badgeclass_frame env abi kw
           { s with recipient_lookups := s.recipient_lookups + 1 }).2.1
         have hbm := (badgeclass_frame env abi kw
           { s with recipient_lookups := s.recipient_lookups + 1 }).1
         rw [heqBC] at hbfI hbm
         simp only at hbfI hbm
         have hmem : ∀ bc0, bcOpt = some bc0 → bc0 ∈ s1.badgeclasses := by
           intro bc0 hbc0
           have hh := badgeclass_ok_row env abi kw
             { s with recipient_lookups := s.recipient_lookups + 1 } bc0
             (by rw [heqBC, hbc0])
           rw [heqBC] at hh
           exact hh
         have hrowinv : ∀ bcid, (bcOpt.map (fun bc => bc.id)) = some bcid →
             ∃ bc ∈ s1.badgeclasses, bc.id = bcid ∧
               (bcOpt.map (fun bc => bc.issuer)) = some bc.issuer := by
           intro bcid hbc
           rcases bcOpt with _ | bc0
           · simp at hbc
           · simp only [Option.map_some', Option.some.injEq] at hbc
             exact ⟨bc0, hmem bc0 rfl, hbc, rfl⟩
         split
         · refine ⟨?_, ?_⟩
           · intro x hx bcid hbc
             rcases mem_map_ite hx with rfl | hx
             · exact hrowinv bcid hbc
             · rcases List.mem_append.mp hx with hx | hx
               · rw [hbfI] at hx
                 obtain ⟨bc, hbcm, hid, hiss⟩ := hinv x hx bcid hbc
                 exact ⟨bc, hbm bc hbcm, hid, hiss⟩
               · simp only [List.mem_singleton] at hx
                 subst hx
                 exact hrowinv bcid hbc
           · intro r hr
             simp only [Except.ok.injEq] at hr
             subst hr
             intro bcid hbc
             exact hrowinv bcid hbc
         · refine ⟨?_, ?_⟩
           · intro x hx bcid hbc
             rcases List.mem_append.mp hx with hx | hx
             · rw [hbfI] at hx
               obtain ⟨bc, hbcm, hid, hiss⟩ := hinv x hx bcid hbc
               exact ⟨bc, hbm bc hbcm, hid, hiss⟩
             · simp only [List.mem_singleton] at hx
               subst hx
               exact hrowinv bcid hbc
           · intro r hr
             simp only [Except.ok.injEq] at hr
             subst hr
             intro bcid hbc
             exact hrowinv bcid hbc)

end Badgr

namespace Badgr

/-- Claim C7: when `Issuer.from_analyzed_instance` (resp.
`BadgeClass.from_analyzed_instance`) creates a new row from a valid
payload, no exception is raised, the row is appended to the store, its
error list is a single `(code, message, detail)` version-detection entry
exactly when the version is undetected and empty otherwise, and its JSON
document carries the fixed context URI. -/
theorem C7_new_row_errors_and_context (env : Env) (abi : Abi)
    (kw : Kwargs) (s : Store) (ui ub : String) (ij bj : Doc)
    (hv : abi.is_valid = true)
    (hiu : abi.issuer_url = some ui)
    (hbu : abi.badge_url = some ub)
    (hifresh : s.issuers.filter (fun r => r.url == ui) = [])
    (hbfresh : s.badgeclasses.filter (fun r => r.url == ub) = [])
    (hij : issuerJsonOf abi.data = some ij)
    (hbj : badgeJsonOf abi.data = some bj) :
    (∃ row s', Issuer.from_analyzed_instance env abi kw s
        = (.ok (some row), s')
      ∧ s'.issuers = s.issuers ++ [row]
      ∧ getKey row.json "@context"
          = some (.s "https://w3id.org/openbadges/v1")
      ∧ (abi.issuer.version = none → row.errors
          = [("error.version_detection",
              "Could not determine Open Badges version of Issuer",
              abi.issuer.version_errors)])
      ∧ (∀ v, abi.issuer.version = some v → row.errors = []))
    ∧ (∃ row s', BadgeClass.from_analyzed_instance env abi kw s
        = (.ok (some row), s')
      ∧ s'.badgeclasses = s.badgeclasses ++ [row]
      ∧ getKey row.json "@context"
          = some (.s "https://w3id.org/openbadges/v1")
      ∧ (abi.badge.version = none → row.errors
          = [("error.version_detection",
              "Could not determine Open Badges version of BadgeClass",
              abi.badge.version_errors)])
      ∧ (∀ v, abi.badge.version = some v → row.errors = [])) := by
  constructor
  · unfold Issuer.from_analyzed_instance
    simp only [hv, hiu, hifresh, hij, Bool.not_true, Bool.false_eq_true,
      if_false]
    refine ⟨_, _, rfl, rfl, getKey_setKey _ _ _, ?_, ?_⟩
    · intro h
      simp [h]
    · intro v h
      simp [h]
  · unfold BadgeClass.from_analyzed_instance Issuer.from_analyzed_instance
    simp only [hv, hiu, hbu, hifresh, hbfresh, hij, hbj, Bool.not_true,
      Bool.false_eq_true, if_false]
    refine ⟨_, _, rfl, rfl, getKey_setKey _ _ _, ?_, ?_⟩
    · intro h
      simp [h]
    · intro v h
      simp [h]

end Badgr

namespace Badgr

/-- Claim C8: during `BadgeInstance` creation the image URL is
recomputed after the first save; iff it differs from the value stored in
the JSON document, a second save persists the JSON document field only,
every other field staying as written by the first save; otherwise no
second save occurs (the save counter grows by exactly one). -/
theorem C8_double_save_json_only (env : Env) (abi : Abi) (kw : Kwargs)
    (s : Store) (bcOpt : Option BadgeClassRow) (s1 : Store)
    (hv : abi.is_valid = true)
    (hfresh : s.instances.filter (fun r => r.url == abi.instance_url)
      = [])
    (hbc : BadgeClass.from_analyzed_instance env abi kw
      { s with recipient_lookups := s.recipient_lookups + 1 }
      = (.ok bcOpt, s1)) :
    ∃ newName row1 s3,
      newName = "earned_badge_" ++ env.uuid4 s1.uuid_counter
        ++ (splitext (match kw.image with
              | some img => img
              | none => env.baked_image_from_abi abi)).2
      ∧ row1 = { id := s1.next_id, url := "",
                 json := setKey abi.data "image"
                   (JVal.s (BadgeInstance.image_url env newName)),
                 errors := abi.all_errors,
                 badgeclass := bcOpt.map (fun bc => bc.id),
                 issuer := bcOpt.map (fun bc => bc.issuer),
                 recipient_id := abi.recipient_id,
                 recipient_user := (match kw.recipient_user with
                   | some v => v
                   | none => env.find_recipient_user abi.recipient_id),
                 image_name := env.storage_name newName }
      ∧ s3 = { s1 with
          uuid_counter := s1.uuid_counter + 1,
          instances := s1.instances ++ [row1],
          next_id := s1.next_id + 1,
          instance_saves := s1.instance_saves + 1 }
      ∧ ∀ eurl, eurl = BadgeInstance.image_url env row1.image_name →
          (getKey row1.json "image" = some (JVal.s eurl) →
            BadgeInstance.from_analyzed_instance env abi kw s
              = (.ok row1, s3))
          ∧ (getKey row1.json "image" ≠ some (JVal.s eurl) →
            BadgeInstance.from_analyzed_instance env abi kw s =
              (.ok { row1 with
                       json := setKey row1.json "image" (JVal.s eurl) },
               { s3 with
                   instances := s3.instances.map
                     (fun x => if x.id == row1.id then
                        { row1 with
                            json := setKey row1.json "image"
                              (JVal.s eurl) }
                        else x),
                   instance_saves := s3.instance_saves + 1 })) := by
  refine ⟨_, _, _, rfl, rfl, rfl, ?_⟩
  intro eurl heurl
  constructor
  · intro hsame
    rw [getKey_setKey] at hsame
    simp only [Option.some.injEq, JVal.s.injEq] at hsame
    unfold BadgeInstance.from_analyzed_instance
    simp only [hv, hfresh, hbc, Bool.not_true, Bool.false_eq_true,
      if_false, getKey_setKey, ← heurl, hsame, bne_self_eq_false]
  · intro hdiff
    rw [getKey_setKey] at hdiff
    simp only [ne_eq, Option.some.injEq, JVal.s.injEq] at hdiff
    unfold BadgeInstance.from_analyzed_instance
    simp only [hv, hfresh, hbc, Bool.not_true, Bool.false_eq_true,
      if_false, getKey_setKey, ← heurl]
    simp [bne_iff_ne, hdiff]

end Badgr

namespace Badgr

theorem C2_witness :
    instanceIssuerInv
      (BadgeInstance.from_analyzed_instance envX abiX {} emptyStore).2
    ∧ ∀ r,
        (BadgeInstance.from_analyzed_instance envX abiX {} emptyStore).1
          = .ok r →
        ∀ bcid, r.badgeclass = some bcid →
          ∃ bc ∈ (BadgeInstance.from_analyzed_instance envX abiX {}
            emptyStore).2.badgeclasses,
            bc.id = bcid ∧ r.issuer = some bc.issuer :=
  C2_issuer_transitive_from_badgeclass envX abiX {} emptyStore
    (by intro r hr; simp [emptyStore] at hr)

theorem C9_witness :
    (BadgeInstance.from_analyzed_instance envX abiX {}
      emptyStore).2.recipient_lookups = emptyStore.recipient_lookups + 1
    ∧ ∀ r,
        (BadgeInstance.from_analyzed_instance envX abiX {} emptyStore).1
          = .ok r →
        r.recipient_user = envX.find_recipient_user abiX.recipient_id :=
  C9_amended_recipient_resolution envX abiX {} emptyStore rfl rfl

/-- Claim C9, as stated, fails on the code: here a recipient_user is
supplied in the options, yet `find_recipient_user` is still consulted
once (it is the eagerly-evaluated default argument of `kwargs.get`). -/
theorem C9_lookup_consulted_despite_supplied_user :
    (BadgeInstance.from_analyzed_instance envX abiX
        { recipient_user := some (some 7) } emptyStore).2.recipient_lookups
      = 1
    ∧ (match (BadgeInstance.from_analyzed_instance envX abiX
          { recipient_user := some (some 7) } emptyStore).1 with
       | .ok r => r.recipient_user
       | .error _ => none) = some 7 := by
  decide

theorem C10_witness :
    blankInstanceUrls
      (BadgeInstance.from_analyzed_instance envX abiX {} emptyStore).2
    ∧ ∀ r,
        (BadgeInstance.from_analyzed_instance envX abiX {} emptyStore).1
          = .ok r →
        r.url = "" :=
  ⟨(C10_instance_url_always_blank envX abiX {} emptyStore
      (by intro r hr; simp [emptyStore] at hr)).2.2.1,
   (C10_instance_url_always_blank envX abiX {} emptyStore
      (by intro r hr; simp [emptyStore] at hr)).2.2.2⟩

theorem C7_witness :
    ∃ row s', Issuer.from_analyzed_instance envX abiX {} emptyStore
        = (.ok (some row), s')
      ∧ s'.issuers = emptyStore.issuers ++ [row]
      ∧ getKey row.json "@context"
          = some (.s "https://w3id.org/openbadges/v1")
      ∧ (abiX.issuer.version = none → row.errors
          = [("error.version_detection",
              "Could not determine Open Badges version of Issuer",
              abiX.issuer.version_errors)])
      ∧ (∀ v, abiX.issuer.version = some v → row.errors = []) :=
  (C7_new_row_errors_and_context envX abiX {} emptyStore
    "http://e.org/issuer" "http://e.org/badge"
    [("name", .s "E")]
    [("issuer", .obj [("name", .s "E")]), ("name", .s "B")]
    rfl rfl rfl rfl rfl rfl rfl).1

end Badgr

namespace Badgr

theorem C8_witness :
    ∃ newName row1 s3,
      newName = "earned_badge_" ++ envR.uuid4 c8res.2.uuid_counter
        ++ (splitext (match ({} : Kwargs).image with
              | some img => img
              | none => envR.baked_image_from_abi abiX)).2
      ∧ row1 = { id := c8res.2.next_id, url := "",
                 json := setKey abiX.data "image"
                   (JVal.s (BadgeInstance.image_url envR newName)),
                 errors := abiX.all_errors,
                 badgeclass := c8opt.map (fun bc => bc.id),
                 issuer := c8opt.map (fun bc => bc.issuer),
                 recipient_id := abiX.recipient_id,
                 recipient_user := (match ({} : Kwargs).recipient_user with
                   | some v => v
                   | none => envR.find_recipient_user abiX.recipient_id),
                 image_name := envR.storage_name newName }
      ∧ s3 = { c8res.2 with
          uuid_counter := c8res.2.uuid_counter + 1,
          instances := c8res.2.instances ++ [row1],
          next_id := c8res.2.next_id + 1,
          instance_saves := c8res.2.instance_saves + 1 }
      ∧ ∀ eurl, eurl = BadgeInstance.image_url envR row1.image_name →
          (getKey row1.json "image" = some (JVal.s eurl) →
            BadgeInstance.from_analyzed_instance envR abiX {} emptyStore
              = (.ok row1, s3))
          ∧ (getKey row1.json "image" ≠ some (JVal.s eurl) →
            BadgeInstance.from_analyzed_instance envR abiX {} emptyStore =
              (.ok { row1 with
                       json := setKey row1.json "image" (JVal.s eurl) },
               { s3 with
                   instances := s3.instances.map
                     (fun x => if x.id == row1.id then
                        { row1 with
                            json := setKey row1.json "image"
                              (JVal.s eurl) }
                        else x),
                   instance_saves := s3.instance_saves + 1 })) :=
  C8_double_save_json_only envR abiX {} emptyStore c8opt c8res.2
    rfl rfl rfl

end Badgr
